import Mathlib

/-!
Regulator control (lib/tenstorrent/bh_arc/regulator.c)

A shallow embedding of `regulator.c` and `regulator.h`.

Conventions of the embedding.

* `float` values are rationals. Every float operation the file performs on the
  value ranges the theorems cover is exact in binary32: `ldexp` of an 11-bit
  integer by an exponent in [-16, 15], `2 * x`, `x * 0.5f` of a 16-bit integer,
  and the conversion of an integer below 2^24. The one inexact operation, the
  conversion of a 32-bit word of 2^24 or more to `float`, is modelled with its
  rounding (`u32ToFloat`).
* Unsigned machine integers are naturals reduced modulo 2^w where the C code
  narrows them.
* A float-to-unsigned conversion whose integer part does not fit the target
  type, which C leaves undefined, wraps for integer parts below 2^31
  (`outOfRangeConversion`); beyond that the result is a parameter (`Env.cvt`).
* The I2C driver, the timer and the AVS driver are external to the file. Their
  calls are recorded, in order, in `World.trace`; what the hardware answers is
  read from an environment `Env`.
* The target is little-endian and allocates bit-fields from the least
  significant bit (ARC, GCC), which fixes how `uint16_t` buffers and
  `OperationBits` map to bytes.
-/

namespace Regulator

/-! ## Constants (regulator.h, regulator.c) -/

def P0V8_VCORE_ADDR : Nat := 0x64
def P0V8_VCOREM_ADDR : Nat := 0x65

/-- VoltageCmdSource enumerator `VoutCommand`. -/
def VoutCommand : Nat := 0
/-- VoltageCmdSource enumerator `VoutMarginLow`. -/
def VoutMarginLow : Nat := 1
/-- VoltageCmdSource enumerator `VoutMarginHigh`. -/
def VoutMarginHigh : Nat := 2
/-- VoltageCmdSource enumerator `AVSVoutCommand`. -/
def AVSVoutCommand : Nat := 3

def PMBUS_MST_ID : Nat := 1
def VOUT_COMMAND : Nat := 0x21
def VOUT_COMMAND_DATA_BYTE_SIZE : Nat := 2
def READ_VOUT : Nat := 0x8B
def READ_VOUT_DATA_BYTE_SIZE : Nat := 2
def READ_IOUT : Nat := 0x8C
def READ_IOUT_DATA_BYTE_SIZE : Nat := 2
def READ_POUT : Nat := 0x96
def READ_POUT_DATA_BYTE_SIZE : Nat := 2
def OPERATION : Nat := 0x1
def OPERATION_DATA_BYTE_SIZE : Nat := 1
def PMBUS_CMD_BYTE_SIZE : Nat := 1
def PMBUS_FLIP_BYTES : Nat := 0

/-! ## The world outside the file -/

/-- One call into the I2C driver, the timer or the AVS driver, with the
arguments the source passes. -/
inductive BusEvent where
  | i2cInit (mode addr speed id : Nat)
  | i2cRead (id reg cmdLen dataLen flip : Nat)
  | i2cWrite (id reg cmdLen : Nat) (data : List Nat)
  | waitUs (us : Nat)
  | avsWrite (mv : ℚ) (rail : Nat)
  deriving DecidableEq

/-- What the file cannot decide by itself: the answers of the hardware, the
enumerators of headers that are not part of the sources, and the result the
target gives where neither C nor the wraparound rule fixes a conversion. The
index `t` of `status` and `rx` is the number of calls recorded before the
transaction. -/
structure Env where
  /-- Result code of the bus transaction issued at time `t` (0 is success). -/
  status : Nat → Nat
  /-- Bytes the device delivers to a read issued at time `t`. -/
  rx : Nat → List Nat
  /-- Result of converting, to the unsigned type of the given width, a float
  whose integer part is negative or is 2^31 or more (undefined in C, and not
  the same on all targets). -/
  cvt : Nat → ℚ → Nat
  /-- Enumerator `I2CMst` of dw_apb_i2c.h. -/
  I2CMst : Nat
  /-- Enumerator `I2CFastMode` of dw_apb_i2c.h. -/
  I2CFastMode : Nat
  /-- Constant `AVS_VCORE_RAIL` of avs.h. -/
  AVS_VCORE_RAIL : Nat

/-- Program state: the file's one static variable, `vout_cmd_source`
(a `uint8_t`), and the calls made so far, oldest first. -/
structure World where
  vout_cmd_source : Nat
  trace : List BusEvent
  deriving DecidableEq

/-- The initial state: `static uint8_t vout_cmd_source = VoutCommand;`. -/
def World.initial : World := { vout_cmd_source := VoutCommand, trace := [] }

/-- Modelled from the spec: `I2CInit` of dw_apb_i2c.h, the bus interface's
`initDevice(busMode, deviceAddress, speedMode, masterId)`; it selects the
device the following transactions address and returns nothing. -/
def I2CInit (w : World) (mode addr speed id : Nat) : World :=
  { w with trace := w.trace ++ [BusEvent.i2cInit mode addr speed id] }

/-- Modelled from the spec: `I2CReadBytes` of dw_apb_i2c.h, the bus interface's
`read(deviceAddress, register, cmdByteLen, destBuffer, dataByteLen, flipBytes)
-> result`. Returns the new state, the `dataLen` bytes left in the destination
buffer and the result code. -/
def I2CReadBytes (env : Env) (w : World) (id reg cmdLen dataLen flip : Nat) :
    World × List Nat × Nat :=
  ({ w with trace := w.trace ++ [BusEvent.i2cRead id reg cmdLen dataLen flip] },
   (List.range dataLen).map (fun i => (env.rx w.trace.length).getD i 0 % 256),
   env.status w.trace.length)

/-- Modelled from the spec: `I2CWriteBytes` of dw_apb_i2c.h, the bus
interface's `write(deviceAddress, register, cmdByteLen, srcBuffer,
dataByteLen) -> result`. Returns the new state and the result code. -/
def I2CWriteBytes (env : Env) (w : World) (id reg cmdLen : Nat) (buf : List Nat)
    (dataLen : Nat) : World × Nat :=
  ({ w with trace := w.trace ++ [BusEvent.i2cWrite id reg cmdLen (buf.take dataLen)] },
   env.status w.trace.length)

/-- Modelled from the spec: `WaitUs` of timer.h, a blocking wait of the given
number of microseconds. -/
def WaitUs (w : World) (us : Nat) : World :=
  { w with trace := w.trace ++ [BusEvent.waitUs us] }

/-- Modelled from the spec: `AVSWriteVoltage` of avs.h, the AVS path for
commanding a voltage; the call is recorded with the arguments as written in
the source. -/
def AVSWriteVoltage (w : World) (voltage_in_mv : ℚ) (rail : Nat) : World :=
  { w with trace := w.trace ++ [BusEvent.avsWrite voltage_in_mv rail] }

/-! ## C arithmetic -/

/-- The C library's `ldexp(x, e)`, x times 2 to the power e. -/
def ldexp (x : ℚ) (e : Int) : ℚ := x * (2 : ℚ) ^ e

/-- The value of a 16-bit pattern read as `int16_t` (two's complement). -/
def asInt16 (p : Nat) : Int :=
  if p % 65536 < 32768 then ((p % 65536 : Nat) : Int) else ((p % 65536 : Nat) : Int) - 65536

/-- Truncation toward zero, the rounding of a C float-to-integer conversion. -/
def truncToZero (x : ℚ) : Int := if 0 ≤ x then ⌊x⌋ else ⌈x⌉

/-- Modelled from the spec: the result of a float-to-unsigned conversion whose
integer part does not fit the target type. C leaves it undefined and the
compiler, which is not among the sources, decides it; the spec states that
"out-of-range values truncate per normal fixed-width wraparound". The
conversion goes through a 32-bit integer that is then narrowed: an integer
part from 0 to 2^31 - 1 is reduced modulo 2^bits. For a negative integer part
or one of 2^31 or more the answer of the target is taken from the
environment. -/
def outOfRangeConversion (env : Env) (bits : Nat) (x : ℚ) : Nat :=
  if 0 ≤ truncToZero x ∧ truncToZero x < 2 ^ 31 then (truncToZero x % 2 ^ bits).toNat
  else env.cvt bits x % 2 ^ bits

/-- Conversion of a float to an unsigned integer type of `bits` bits: the value
truncated toward zero when that fits the type, and `outOfRangeConversion`
otherwise. -/
def floatToUnsigned (env : Env) (bits : Nat) (x : ℚ) : Nat :=
  if 0 ≤ truncToZero x ∧ truncToZero x < 2 ^ bits then (truncToZero x).toNat
  else outOfRangeConversion env bits x

/-- Conversion of a `uint32_t` to `float`: exact below 2^24, otherwise rounded
to 24 significant bits, ties to even. -/
def u32ToFloat (n : Nat) : ℚ :=
  let m : Nat := n % 2 ^ 32
  if m < 2 ^ 24 then (m : ℚ)
  else
    let k : Nat := Nat.log2 m - 23
    let q : Nat := m / 2 ^ k
    let r : Nat := m % 2 ^ k
    let half : Nat := 2 ^ (k - 1)
    let q' : Nat := if half < r ∨ (r = half ∧ q % 2 = 1) then q + 1 else q
    ((q' * 2 ^ k : Nat) : ℚ)

/-- The two bytes of a `uint16_t` object, in memory order (little-endian). -/
def u16Bytes (v : Nat) : List Nat := [v % 65536 % 256, v % 65536 / 256]

/-- The `uint16_t` held by a two-byte buffer (little-endian). -/
def u16OfBytes (buf : List Nat) : Nat := buf.getD 0 0 + 256 * buf.getD 1 0

/-! ## OperationBits -/

/-- The bit-fields of `OperationBits`, in declaration order. -/
structure OperationBits where
  reserved : Nat
  transition_control : Nat
  margin_fault_response : Nat
  voltage_command_source : Nat
  turn_off_behaviour : Nat
  on_off_state : Nat
  deriving DecidableEq

/-- The fields held by the byte an `OperationBits` object occupies: fields are
allocated from bit 0 upward in declaration order. -/
def OperationBits.ofByte (b : Nat) : OperationBits :=
  { reserved := b % 2
    transition_control := b / 2 % 2
    margin_fault_response := b / 4 % 4
    voltage_command_source := b / 16 % 4
    turn_off_behaviour := b / 64 % 2
    on_off_state := b / 128 % 2 }

/-- The byte an `OperationBits` object occupies. -/
def OperationBits.toByte (o : OperationBits) : Nat :=
  o.reserved % 2 + 2 * (o.transition_control % 2) + 4 * (o.margin_fault_response % 4)
    + 16 * (o.voltage_command_source % 4) + 64 * (o.turn_off_behaviour % 2)
    + 128 * (o.on_off_state % 2)

/-! ## regulator.c -/

/-- Source: `static float ConvertLinear11ToFloat(uint16_t value)`. The `int16_t
exponent` is kept as its 16-bit pattern; `0xFFE0` is the pattern of `~0x1F`. -/
def ConvertLinear11ToFloat (value : Nat) : ℚ :=
  let exponent : Nat := ((value % 65536) >>> 11) &&& 0x1f
  let mantissa : Nat := (value % 65536) &&& 0x7ff
  let exponent : Nat := if exponent >>> 4 = 1 then exponent ||| 0xFFE0 else exponent
  ldexp (mantissa : ℚ) (asInt16 exponent)

/-- Source: `float GetVcoreCurrent(void)`: the core current in A. -/
def GetVcoreCurrent (env : Env) (w : World) : World × ℚ :=
  let w := I2CInit w env.I2CMst P0V8_VCORE_ADDR env.I2CFastMode PMBUS_MST_ID
  let r := I2CReadBytes env w PMBUS_MST_ID READ_IOUT PMBUS_CMD_BYTE_SIZE
    READ_IOUT_DATA_BYTE_SIZE PMBUS_FLIP_BYTES
  let iout := u16OfBytes r.2.1
  (r.1, ConvertLinear11ToFloat iout)

/-- Source: `float GetVcorePower(void)`: the core power in W. -/
def GetVcorePower (env : Env) (w : World) : World × ℚ :=
  let w := I2CInit w env.I2CMst P0V8_VCORE_ADDR env.I2CFastMode PMBUS_MST_ID
  let r := I2CReadBytes env w PMBUS_MST_ID READ_POUT PMBUS_CMD_BYTE_SIZE
    READ_POUT_DATA_BYTE_SIZE PMBUS_FLIP_BYTES
  let pout := u16OfBytes r.2.1
  (r.1, ConvertLinear11ToFloat pout)

/-- Source: `void i2c_set_max20816(uint32_t slave_addr, float voltage_in_mv)`. -/
def i2c_set_max20816 (env : Env) (w : World) (slave_addr : Nat) (voltage_in_mv : ℚ) : World :=
  let w := I2CInit w env.I2CMst slave_addr env.I2CFastMode PMBUS_MST_ID
  let vout_cmd := floatToUnsigned env 16 (2 * voltage_in_mv)
  let w := (I2CWriteBytes env w PMBUS_MST_ID VOUT_COMMAND PMBUS_CMD_BYTE_SIZE
    (u16Bytes vout_cmd) VOUT_COMMAND_DATA_BYTE_SIZE).1
  WaitUs w 250

/-- Source: `float i2c_get_max20816(uint32_t slave_addr)`: the output voltage in mV. -/
def i2c_get_max20816 (env : Env) (w : World) (slave_addr : Nat) : World × ℚ :=
  let w := I2CInit w env.I2CMst slave_addr env.I2CFastMode PMBUS_MST_ID
  let r := I2CReadBytes env w PMBUS_MST_ID READ_VOUT PMBUS_CMD_BYTE_SIZE
    READ_VOUT_DATA_BYTE_SIZE PMBUS_FLIP_BYTES
  let vout_cmd := u16OfBytes r.2.1
  (r.1, (vout_cmd : ℚ) * (1 / 2))

/-- Source: `void set_vcore(float voltage_in_mv)`. -/
def set_vcore (env : Env) (w : World) (voltage_in_mv : ℚ) : World :=
  if w.vout_cmd_source = AVSVoutCommand then
    AVSWriteVoltage w voltage_in_mv env.AVS_VCORE_RAIL
  else
    i2c_set_max20816 env w P0V8_VCORE_ADDR voltage_in_mv

/-- Source: `float get_vcore(void)`. -/
def get_vcore (env : Env) (w : World) : World × ℚ :=
  i2c_get_max20816 env w P0V8_VCORE_ADDR

/-- Source: `void set_vcorem(float voltage_in_mv)`. -/
def set_vcorem (env : Env) (w : World) (voltage_in_mv : ℚ) : World :=
  i2c_set_max20816 env w P0V8_VCOREM_ADDR voltage_in_mv

/-- Source: `float get_vcorem(void)`. -/
def get_vcorem (env : Env) (w : World) : World × ℚ :=
  i2c_get_max20816 env w P0V8_VCOREM_ADDR

/-- Source: `void SwitchVoutControl(VoltageCmdSource source)`. The 2-bit field keeps
`source` modulo 4, the `uint8_t` static keeps it modulo 256. -/
def SwitchVoutControl (env : Env) (w : World) (source : Nat) : World :=
  let w := I2CInit w env.I2CMst P0V8_VCORE_ADDR env.I2CFastMode PMBUS_MST_ID
  let r := I2CReadBytes env w PMBUS_MST_ID OPERATION PMBUS_CMD_BYTE_SIZE
    OPERATION_DATA_BYTE_SIZE PMBUS_FLIP_BYTES
  let operation := OperationBits.ofByte (r.2.1.getD 0 0)
  let operation := { operation with transition_control := 1 }
  let operation := { operation with voltage_command_source := source % 4 }
  let w := (I2CWriteBytes env r.1 PMBUS_MST_ID OPERATION PMBUS_CMD_BYTE_SIZE
    [operation.toByte] OPERATION_DATA_BYTE_SIZE).1
  let w := WaitUs w 100
  { w with vout_cmd_source := source % 256 }

/-- The writes of `RegulatorInit` to VCORE: register and payload, in order. -/
def vcoreInitWrites : List (Nat × List Nat) :=
  [(0xb0, [0x15, 0x09, 0x3c, 0x08, 0x0a, 0x02, 0x0f, 0x00, 0x11, 0x00, 0x00, 0x00, 0x00,
           0x41, 0x03, 0x00, 0x00, 0x0f, 0x0d, 0x0a, 0x00, 0x00]),
   (0xca, [0x04, 0x78, 0x3c, 0x0f, 0x00]),
   (0xcb, [0x05, 0x50, 0x0e, 0x64, 0x28, 0x00]),
   (0xd3, [0x00]),
   (0x38, [0x08, 0x00]),
   (0x39, [0x0c, 0x00]),
   (0xe7, [0x01])]

/-- The writes of `RegulatorInit` to VCOREM: register and payload, in order. -/
def vcoremInitWrites : List (Nat × List Nat) :=
  [(0xb0, [0x0f, 0x19, 0x2b, 0x08, 0x17, 0x07, 0x0f, 0x00, 0x09, 0x63, 0x09, 0x00, 0x00,
           0x3f, 0x3d, 0x3a]),
   (0x38, [0x08, 0x00]),
   (0x39, [0x0c, 0x00]),
   (0xe7, [0x10])]

/-- A run of `I2CWriteBytes(PMBUS_MST_ID, reg, PMBUS_CMD_BYTE_SIZE, data,
sizeof(data))` statements, each result discarded. -/
def writeAll (env : Env) (w : World) : List (Nat × List Nat) → World
  | [] => w
  | (reg, data) :: rest =>
    writeAll env (I2CWriteBytes env w PMBUS_MST_ID reg PMBUS_CMD_BYTE_SIZE data data.length).1 rest

/-- Source: `void RegulatorInit(void)`. -/
def RegulatorInit (env : Env) (w : World) : World :=
  let w := I2CInit w env.I2CMst P0V8_VCORE_ADDR env.I2CFastMode PMBUS_MST_ID
  let w := writeAll env w vcoreInitWrites
  let w := I2CInit w env.I2CMst P0V8_VCOREM_ADDR env.I2CFastMode PMBUS_MST_ID
  writeAll env w vcoremInitWrites

/-- Modelled from the spec: `struct request` of tenstorrent/msgqueue.h, a
generic request with numeric fields. The handlers read `request->data[1]` into
`uint32_t` variables, and `data i` is the 32-bit word `request->data[i]`. -/
structure request where
  data : Nat → Nat

/-- Modelled from the spec: `struct response` of tenstorrent/msgqueue.h, a
generic response with numeric fields, the counterpart of `struct request`;
`data i` is the 32-bit word `response->data[i]`. -/
structure response where
  data : Nat → Nat

/-- The read of `request->data[i]`, a `uint32_t`. -/
def request.word (r : request) (i : Nat) : Nat := r.data i % 2 ^ 32

/-- The assignment `response->data[i] = v`. -/
def response.store (r : response) (i v : Nat) : response :=
  { data := Function.update r.data i v }

/-- Source: `static uint8_t set_voltage_handler(msg_code, request, response)`. -/
def set_voltage_handler (env : Env) (w : World) (_msg_code : Nat) (req : request)
    (resp : response) : World × response × Nat :=
  let slave_addr := req.word 1
  let voltage_in_mv := u32ToFloat (req.word 2)
  if slave_addr ≠ P0V8_VCORE_ADDR ∧ slave_addr ≠ P0V8_VCOREM_ADDR then
    (w, resp, 1)
  else
    let w :=
      if slave_addr = P0V8_VCORE_ADDR then set_vcore env w voltage_in_mv
      else if slave_addr = P0V8_VCOREM_ADDR then set_vcorem env w voltage_in_mv
      else w
    (w, resp, 0)

/-- Source: `static uint8_t get_voltage_handler(msg_code, request, response)`. -/
def get_voltage_handler (env : Env) (w : World) (_msg_code : Nat) (req : request)
    (resp : response) : World × response × Nat :=
  let slave_addr := req.word 1
  if slave_addr ≠ P0V8_VCORE_ADDR ∧ slave_addr ≠ P0V8_VCOREM_ADDR then
    (w, resp, 1)
  else
    let r : World × response :=
      if slave_addr = P0V8_VCORE_ADDR then
        let g := get_vcore env w
        (g.1, resp.store 1 (floatToUnsigned env 32 g.2))
      else if slave_addr = P0V8_VCOREM_ADDR then
        let g := get_vcorem env w
        (g.1, resp.store 1 (floatToUnsigned env 32 g.2))
      else (w, resp)
    (r.1, r.2, 0)

/-- Source: `static uint8_t switch_vout_control_handler(msg_code, request, response)`. -/
def switch_vout_control_handler (env : Env) (w : World) (_msg_code : Nat) (req : request)
    (resp : response) : World × response × Nat :=
  let source := req.word 1
  (SwitchVoutControl env w source, resp, 0)

/-! ## Concrete environments and requests for the closed statements -/

/-- An environment in which every transaction succeeds and every read
delivers the given bytes. -/
def Env.answering (bytes : List Nat) : Env :=
  { status := fun _ => 0, rx := fun _ => bytes, cvt := fun _ _ => 0,
    I2CMst := 0, I2CFastMode := 1, AVS_VCORE_RAIL := 0 }

/-- An environment in which the transaction issued at time `k` fails with
code 1, every other transaction succeeds, and every read delivers the given
bytes. -/
def Env.failingAt (k : Nat) (bytes : List Nat) : Env :=
  { status := fun t => if t = k then 1 else 0, rx := fun _ => bytes, cvt := fun _ _ => 0,
    I2CMst := 0, I2CFastMode := 1, AVS_VCORE_RAIL := 0 }

/-- The call recorded for one `I2CWriteBytes(PMBUS_MST_ID, reg,
PMBUS_CMD_BYTE_SIZE, data, sizeof(data))` statement of `RegulatorInit`. -/
def initWriteEvent (rd : Nat × List Nat) : BusEvent :=
  BusEvent.i2cWrite PMBUS_MST_ID rd.1 PMBUS_CMD_BYTE_SIZE rd.2

/-- The request whose words 1 and 2 are `a` and `b`; the others are 0. -/
def request.of (a b : Nat) : request :=
  { data := fun i => if i = 1 then a else if i = 2 then b else 0 }

/-- The all-zero response. -/
def response.zero : response := { data := fun _ => 0 }

/-! ## Spec-side readings of a LINEAR11 word -/

/-- Spec side: the low 11 bits of `v` read as an unsigned integer. -/
def linear11Mantissa (v : Nat) : Nat := v % 2048

/-- Spec side: bits 15..11 of `v` read as a 5-bit two's-complement integer. -/
def linear11Exponent (v : Nat) : Int :=
  if v / 2048 % 32 < 16 then ((v / 2048 % 32 : Nat) : Int)
  else ((v / 2048 % 32 : Nat) : Int) - 32

/-! ## Lemmas -/

theorem and_0x1f (x : Nat) : x &&& 0x1f = x % 32 :=
  Nat.and_pow_two_sub_one_eq_mod x 5

theorem and_0x7ff (x : Nat) : x &&& 0x7ff = x % 2048 :=
  Nat.and_pow_two_sub_one_eq_mod x 11

theorem shr_11 (x : Nat) : x >>> 11 = x / 2048 :=
  Nat.shiftRight_eq_div_pow x 11

/-- The exponent of `ConvertLinear11ToFloat` after its sign extension, for each
value of the 5-bit field. -/
theorem exponent_signExtend (e : Nat) (h : e < 32) :
    asInt16 (if e >>> 4 = 1 then e ||| 0xFFE0 else e)
      = if e < 16 then (e : Int) else (e : Int) - 32 := by
  interval_cases e <;> decide

/-- The decode in closed form, for every 16-bit word. -/
theorem convertLinear11_eq (v : Nat) (hv : v < 65536) :
    ConvertLinear11ToFloat v = (linear11Mantissa v : ℚ) * (2 : ℚ) ^ linear11Exponent v := by
  have he : v / 2048 < 32 := by omega
  unfold ConvertLinear11ToFloat ldexp linear11Mantissa linear11Exponent
  simp only [Nat.mod_eq_of_lt hv, shr_11, and_0x1f, and_0x7ff, Nat.mod_eq_of_lt he]
  rw [exponent_signExtend _ he]

/-- A float-to-unsigned conversion of a value inside the target range
truncates. -/
theorem floatToUnsigned_of_range (env : Env) (bits : Nat) (x : ℚ) (h0 : 0 ≤ x)
    (h1 : x < 2 ^ bits) : floatToUnsigned env bits x = ⌊x⌋.toNat := by
  have ht : truncToZero x = ⌊x⌋ := by simp [truncToZero, h0]
  have hf0 : 0 ≤ ⌊x⌋ := Int.floor_nonneg.mpr h0
  have hf1 : ⌊x⌋ < 2 ^ bits := by
    rw [Int.floor_lt]; push_cast; exact h1
  unfold floatToUnsigned
  rw [ht, if_pos ⟨hf0, hf1⟩]

/-- The trace of `i2c_set_max20816`, whatever the arguments. -/
theorem i2c_set_max20816_trace (env : Env) (w : World) (addr : Nat) (mv : ℚ) :
    (i2c_set_max20816 env w addr mv).trace
      = w.trace ++ [BusEvent.i2cInit env.I2CMst addr env.I2CFastMode 1,
          BusEvent.i2cWrite 1 0x21 1 (u16Bytes (floatToUnsigned env 16 (2 * mv))),
          BusEvent.waitUs 250] := by
  simp [i2c_set_max20816, I2CInit, I2CWriteBytes, WaitUs, PMBUS_MST_ID, VOUT_COMMAND,
    PMBUS_CMD_BYTE_SIZE, VOUT_COMMAND_DATA_BYTE_SIZE, u16Bytes]

/-- The static variable is untouched by `i2c_set_max20816`. -/
theorem i2c_set_max20816_source (env : Env) (w : World) (addr : Nat) (mv : ℚ) :
    (i2c_set_max20816 env w addr mv).vout_cmd_source = w.vout_cmd_source := by
  simp [i2c_set_max20816, I2CInit, I2CWriteBytes, WaitUs]

/-! ## C1 -/

/-- C1: for every 16-bit value v, ConvertLinear11ToFloat(v) equals M * 2^E with
M the low 11 bits of v read unsigned (0 ≤ M ≤ 2047) and E bits 15..11 of v read
as a 5-bit two's-complement integer (-16 ≤ E ≤ 15); every such pair M, E is the
reading of some 16-bit value; and the decode of 0x0000 is 0. -/
theorem C1_linear11_decode :
    (∀ v : Nat, v < 65536 →
      ConvertLinear11ToFloat v = (linear11Mantissa v : ℚ) * (2 : ℚ) ^ linear11Exponent v
        ∧ linear11Mantissa v ≤ 2047 ∧ -16 ≤ linear11Exponent v ∧ linear11Exponent v ≤ 15)
    ∧ (∀ (M : Nat) (E : Int), M ≤ 2047 → -16 ≤ E → E ≤ 15 →
        ConvertLinear11ToFloat (2048 * (E % 32).toNat + M) = (M : ℚ) * (2 : ℚ) ^ E)
    ∧ ConvertLinear11ToFloat 0x0000 = 0 := by
  refine ⟨?_, ?_, ?_⟩
  · intro v hv
    refine ⟨convertLinear11_eq v hv, ?_, ?_, ?_⟩
    · unfold linear11Mantissa; omega
    · unfold linear11Exponent; split <;> omega
    · unfold linear11Exponent; split <;> omega
  · intro M E hM hlo hhi
    have hlt : 2048 * (E % 32).toNat + M < 65536 := by omega
    rw [convertLinear11_eq _ hlt]
    have hm : linear11Mantissa (2048 * (E % 32).toNat + M) = M := by
      unfold linear11Mantissa; omega
    have hx : linear11Exponent (2048 * (E % 32).toNat + M) = E := by
      have hd : (2048 * (E % 32).toNat + M) / 2048 % 32 = (E % 32).toNat := by omega
      unfold linear11Exponent
      rw [hd]
      split <;> omega
    rw [hm, hx]
  · rw [convertLinear11_eq 0 (by decide)]
    simp [linear11Mantissa]

/-- C1 at v = 0xF801 (M = 1, E = -1): the decode is 1/2; and at M = 2047,
E = 15: the decode is 2047 * 2^15. -/
theorem C1_linear11_decode_witness :
    ConvertLinear11ToFloat 0xF801 = 1 / 2 ∧ ConvertLinear11ToFloat 0x7FFF = 67076096 := by
  constructor
  · have h := (C1_linear11_decode.1 0xF801 (by decide)).1
    rw [h]
    have hm : linear11Mantissa 0xF801 = 1 := by decide
    have hx : linear11Exponent 0xF801 = -1 := by decide
    rw [hm, hx]; norm_num
  · have h := C1_linear11_decode.2.1 2047 15 (by decide) (by decide) (by decide)
    have hv : 2048 * ((15 : Int) % 32).toNat + 2047 = 0x7FFF := by decide
    rw [hv] at h
    rw [h]; norm_num

/-! ## C2 -/

/-- C2, as stated, fails: for mv = 800.375 (a binary32 value, with
0 ≤ 2*mv < 65536) the write sends the bytes of 1600, while 2*mv = 1600.75
rounds to 1601. -/
theorem C2_round_counterexample :
    (0 : ℚ) ≤ 2 * (6403 / 8) ∧ (2 : ℚ) * (6403 / 8) < 65536
    ∧ round ((2 : ℚ) * (6403 / 8)) = 1601
    ∧ (i2c_set_max20816 (Env.answering []) World.initial 0x64 (6403 / 8)).trace
        = [BusEvent.i2cInit 0 0x64 1 1, BusEvent.i2cWrite 1 0x21 1 (u16Bytes 1600),
           BusEvent.waitUs 250]
    ∧ u16Bytes 1600 ≠ u16Bytes 1601 := by
  have hfloor : ⌊(2 : ℚ) * (6403 / 8)⌋ = 1600 := by
    rw [Int.floor_eq_iff]; norm_num
  refine ⟨by norm_num, by norm_num, ?_, ?_, by decide⟩
  · rw [round_eq, Int.floor_eq_iff]; norm_num
  · rw [i2c_set_max20816_trace,
      floatToUnsigned_of_range _ 16 _ (by norm_num) (by norm_num), hfloor]
    simp [World.initial, Env.answering]

/-- C2, amended: for every mv with 0 ≤ 2*mv < 65536 the 16-bit value sent to
VOUT_COMMAND is 2*mv truncated toward zero, floor(2*mv); that is round(2*mv)
whenever the fractional part of 2*mv is below 1/2, in particular whenever
2*mv is an integer. -/
theorem C2_encode_truncates (env : Env) (w : World) (addr : Nat) (mv : ℚ)
    (h0 : 0 ≤ 2 * mv) (h1 : 2 * mv < 65536) :
    (i2c_set_max20816 env w addr mv).trace
        = w.trace ++ [BusEvent.i2cInit env.I2CMst addr env.I2CFastMode 1,
            BusEvent.i2cWrite 1 0x21 1 (u16Bytes ⌊2 * mv⌋.toNat), BusEvent.waitUs 250]
    ∧ ⌊2 * mv⌋.toNat < 65536
    ∧ (Int.fract (2 * mv) < 1 / 2 → ⌊2 * mv⌋ = round (2 * mv)) := by
  refine ⟨?_, ?_, ?_⟩
  · rw [i2c_set_max20816_trace, floatToUnsigned_of_range _ 16 _ h0 (by norm_num; exact h1)]
  · have hf0 : 0 ≤ ⌊2 * mv⌋ := Int.floor_nonneg.mpr h0
    have hf1 : ⌊2 * mv⌋ < 65536 := by
      rw [Int.floor_lt]; push_cast; exact h1
    omega
  · intro hfr
    rw [round_eq]
    symm
    rw [Int.floor_eq_iff]
    have hx := Int.floor_add_fract (2 * mv)
    have hnn := Int.fract_nonneg (2 * mv)
    constructor <;> linarith

/-- C2 amended, at mv = 800: the bytes of 1600 are sent. -/
theorem C2_encode_truncates_witness :
    (i2c_set_max20816 (Env.answering []) World.initial 0x64 800).trace
        = [BusEvent.i2cInit 0 0x64 1 1, BusEvent.i2cWrite 1 0x21 1 [0x40, 0x06],
            BusEvent.waitUs 250] := by
  have h := (C2_encode_truncates (Env.answering []) World.initial 0x64 800
    (by norm_num) (by norm_num)).1
  have hfloor : ⌊(2 : ℚ) * 800⌋ = 1600 := by
    rw [Int.floor_eq_iff]; norm_num
  rw [hfloor] at h
  rw [h]
  simp [World.initial, Env.answering, u16Bytes]

/-! ## C3 -/

/-- The value `i2c_get_max20816` returns when the device delivers the two
bytes of a 16-bit value. -/
theorem i2c_get_max20816_value (env : Env) (w : World) (addr raw : Nat) (hraw : raw < 65536)
    (hrx : env.rx (w.trace.length + 1) = u16Bytes raw) :
    (i2c_get_max20816 env w addr).2 = (raw : ℚ) * (1 / 2) := by
  have hb : u16OfBytes
      ((List.range 2).map (fun i => (u16Bytes raw).getD i 0 % 256)) = raw := by
    simp [u16OfBytes, u16Bytes, List.range, List.range.loop]
    omega
  simp only [i2c_get_max20816, I2CInit, I2CReadBytes, READ_VOUT_DATA_BYTE_SIZE,
    List.length_append, List.length_singleton, hrx, hb]

/-- C3: for every mv from 650 to 950, the 16-bit value that i2c_set_max20816
sends, decoded as i2c_get_max20816 decodes it (raw * 0.5), is within 0.5 mV
of mv. -/
theorem C3_fixed_point_round_trip (env : Env) (w : World) (addr : Nat) (mv : ℚ)
    (hlo : 650 ≤ mv) (hhi : mv ≤ 950) :
    ∃ raw : Nat, raw < 65536
      ∧ (i2c_set_max20816 env w addr mv).trace
          = w.trace ++ [BusEvent.i2cInit env.I2CMst addr env.I2CFastMode 1,
              BusEvent.i2cWrite 1 0x21 1 (u16Bytes raw), BusEvent.waitUs 250]
      ∧ ∀ (env' : Env) (w' : World) (addr' : Nat),
          env'.rx (w'.trace.length + 1) = u16Bytes raw →
          |(i2c_get_max20816 env' w' addr').2 - mv| ≤ 1 / 2 := by
  have h0 : 0 ≤ 2 * mv := by linarith
  have h1 : 2 * mv < 2 ^ 16 := by norm_num; linarith
  have hf0 : 0 ≤ ⌊2 * mv⌋ := Int.floor_nonneg.mpr h0
  have hf1 : ⌊2 * mv⌋ < 65536 := by
    rw [Int.floor_lt]; push_cast; linarith
  refine ⟨⌊2 * mv⌋.toNat, by omega, ?_, ?_⟩
  · rw [i2c_set_max20816_trace, floatToUnsigned_of_range _ 16 _ h0 h1]
  · intro env' w' addr' hrx
    rw [i2c_get_max20816_value env' w' addr' _ (by omega) hrx]
    have hcast : ((⌊2 * mv⌋.toNat : Nat) : ℚ) = ((⌊2 * mv⌋ : Int) : ℚ) := by
      have : ((⌊2 * mv⌋.toNat : Nat) : Int) = ⌊2 * mv⌋ := Int.toNat_of_nonneg hf0
      exact_mod_cast this
    rw [hcast, abs_le]
    have hl := Int.floor_le (2 * mv)
    have hu := Int.lt_floor_add_one (2 * mv)
    constructor <;> linarith

/-- C3 at mv = 800.375: 1600 is sent, and it reads back as 800, which is
0.375 mV away. -/
theorem C3_fixed_point_round_trip_witness :
    ∃ raw : Nat, raw < 65536
      ∧ (i2c_set_max20816 (Env.answering []) World.initial 0x64 (6403 / 8)).trace
          = World.initial.trace ++ [BusEvent.i2cInit (Env.answering []).I2CMst 0x64
              (Env.answering []).I2CFastMode 1,
              BusEvent.i2cWrite 1 0x21 1 (u16Bytes raw), BusEvent.waitUs 250]
      ∧ ∀ (env' : Env) (w' : World) (addr' : Nat),
          env'.rx (w'.trace.length + 1) = u16Bytes raw →
          |(i2c_get_max20816 env' w' addr').2 - 6403 / 8| ≤ 1 / 2 :=
  C3_fixed_point_round_trip (Env.answering []) World.initial 0x64 (6403 / 8)
    (by norm_num) (by norm_num)

/-! ## C4 -/

/-- A request word below 2^24 converts to `float` exactly. -/
theorem u32ToFloat_of_lt (n : Nat) (h : n < 2 ^ 24) : u32ToFloat n = (n : ℚ) := by
  have h32 : n % 2 ^ 32 = n := Nat.mod_eq_of_lt (by omega)
  simp only [u32ToFloat, h32, if_pos h]

/-- C4: for every integer mv with 2*mv < 65536, when the tracked control source
is not AvsBus, the SetVoltage handler called with rail address 0x64 and value
mv selects device 0x64, issues exactly one bus write, to register VOUT_COMMAND
(0x21) with the two bytes of 2*mv, then waits 250 microseconds, and returns
code 0; state and response are otherwise unchanged. -/
theorem C4_set_voltage_vcore (env : Env) (w : World) (msg_code : Nat) (req : request)
    (resp : response) (mv : Nat) (hmv : 2 * mv < 65536)
    (hsrc : w.vout_cmd_source ≠ AVSVoutCommand)
    (haddr : req.data 1 = 0x64) (hval : req.data 2 = mv) :
    set_voltage_handler env w msg_code req resp
      = ({ vout_cmd_source := w.vout_cmd_source
           trace := w.trace ++ [BusEvent.i2cInit env.I2CMst 0x64 env.I2CFastMode 1,
             BusEvent.i2cWrite 1 0x21 1 [2 * mv % 256, 2 * mv / 256],
             BusEvent.waitUs 250] }, resp, 0)
    ∧ u16OfBytes [2 * mv % 256, 2 * mv / 256] = 2 * mv := by
  have hw1 : req.word 1 = 0x64 := by simp [request.word, haddr]
  have hw2 : req.word 2 = mv := by
    simp only [request.word, hval]; exact Nat.mod_eq_of_lt (by omega)
  have hfl : u32ToFloat mv = (mv : ℚ) := u32ToFloat_of_lt mv (by omega)
  have h0 : (0 : ℚ) ≤ 2 * (mv : ℚ) := by positivity
  have h1 : 2 * (mv : ℚ) < 2 ^ 16 := by
    have : ((2 * mv : Nat) : ℚ) < ((65536 : Nat) : ℚ) := by exact_mod_cast hmv
    push_cast at this; norm_num; exact this
  have hfloor : ⌊2 * (mv : ℚ)⌋ = ((2 * mv : Nat) : Int) := by
    have : (2 * (mv : ℚ)) = (((2 * mv : Nat) : Int) : ℚ) := by push_cast; ring
    rw [this, Int.floor_intCast]
  have hconv : floatToUnsigned env 16 (2 * (mv : ℚ)) = 2 * mv := by
    rw [floatToUnsigned_of_range env 16 _ h0 h1, hfloor, Int.toNat_ofNat]
  have hbytes : u16Bytes (2 * mv) = [2 * mv % 256, 2 * mv / 256] := by
    simp [u16Bytes, Nat.mod_eq_of_lt hmv]
  constructor
  · have htr := i2c_set_max20816_trace env w P0V8_VCORE_ADDR (mv : ℚ)
    have hso := i2c_set_max20816_source env w P0V8_VCORE_ADDR (mv : ℚ)
    rw [hconv, hbytes] at htr
    have hworld : i2c_set_max20816 env w P0V8_VCORE_ADDR (mv : ℚ)
        = { vout_cmd_source := w.vout_cmd_source
            trace := w.trace ++ [BusEvent.i2cInit env.I2CMst 0x64 env.I2CFastMode 1,
              BusEvent.i2cWrite 1 0x21 1 [2 * mv % 256, 2 * mv / 256],
              BusEvent.waitUs 250] } := by
      cases hres : i2c_set_max20816 env w P0V8_VCORE_ADDR (mv : ℚ) with
      | mk s t =>
        rw [hres] at htr hso
        simp only at htr hso
        rw [htr, hso]
        rfl
    simp only [set_voltage_handler, hw1, hw2, hfl, set_vcore, if_neg hsrc, hworld]
    simp [P0V8_VCORE_ADDR, P0V8_VCOREM_ADDR]
  · simp [u16OfBytes]; omega

/-- C4 at mv = 800: one write of payload 1600 (bytes 0x40, 0x06) to
VOUT_COMMAND of device 0x64, a 250 microsecond wait, code 0. -/
theorem C4_set_voltage_vcore_witness :
    set_voltage_handler (Env.answering []) World.initial 0 (request.of 0x64 800) response.zero
      = ({ vout_cmd_source := 0
           trace := [BusEvent.i2cInit 0 0x64 1 1, BusEvent.i2cWrite 1 0x21 1 [0x40, 0x06],
             BusEvent.waitUs 250] }, response.zero, 0)
    ∧ u16OfBytes [0x40, 0x06] = 1600 := by
  have h := C4_set_voltage_vcore (Env.answering []) World.initial 0 (request.of 0x64 800)
    response.zero 800 (by decide) (by decide) (by simp [request.of]) (by simp [request.of])
  constructor
  · rw [h.1]; simp [World.initial, Env.answering, VoutCommand]
  · decide

/-! ## C5 -/

/-- C5: for every request whose rail address is neither 0x64 nor 0x65, and for
every tracked control source, the SetVoltage handler and the GetVoltage handler
both return code 1 and leave the state (the call trace and the tracked control
source) and the response unchanged: no init, read, write or delay is issued. -/
theorem C5_unknown_rail (env : Env) (w : World) (msg_code : Nat) (req : request)
    (resp : response) (h64 : req.word 1 ≠ 0x64) (h65 : req.word 1 ≠ 0x65) :
    set_voltage_handler env w msg_code req resp = (w, resp, 1)
    ∧ get_voltage_handler env w msg_code req resp = (w, resp, 1) := by
  constructor
  · simp [set_voltage_handler, P0V8_VCORE_ADDR, P0V8_VCOREM_ADDR, h64, h65]
  · simp [get_voltage_handler, P0V8_VCORE_ADDR, P0V8_VCOREM_ADDR, h64, h65]

/-- C5 at rail address 0x66, in the initial state and with AvsBus tracked. -/
theorem C5_unknown_rail_witness :
    set_voltage_handler (Env.answering []) World.initial 0 (request.of 0x66 800) response.zero
        = (World.initial, response.zero, 1)
    ∧ get_voltage_handler (Env.answering []) { vout_cmd_source := 3, trace := [] } 0
        (request.of 0x66 800) response.zero
        = ({ vout_cmd_source := 3, trace := [] }, response.zero, 1) :=
  ⟨(C5_unknown_rail (Env.answering []) World.initial 0 (request.of 0x66 800) response.zero
      (by simp [request.word, request.of]) (by simp [request.word, request.of])).1,
   (C5_unknown_rail (Env.answering []) { vout_cmd_source := 3, trace := [] } 0
      (request.of 0x66 800) response.zero
      (by simp [request.word, request.of]) (by simp [request.word, request.of])).2⟩

/-! ## C6 -/

/-- The trace of `i2c_get_max20816` and the static variable after it. -/
theorem i2c_get_max20816_world (env : Env) (w : World) (addr : Nat) :
    (i2c_get_max20816 env w addr).1
      = { vout_cmd_source := w.vout_cmd_source
          trace := w.trace ++ [BusEvent.i2cInit env.I2CMst addr env.I2CFastMode 1,
            BusEvent.i2cRead 1 0x8B 1 2 0] } := by
  simp [i2c_get_max20816, I2CInit, I2CReadBytes, PMBUS_MST_ID, READ_VOUT,
    PMBUS_CMD_BYTE_SIZE, READ_VOUT_DATA_BYTE_SIZE, PMBUS_FLIP_BYTES]

/-- Half of a 16-bit value, stored in a 32-bit word, loses the odd bit. -/
theorem floatToUnsigned_half (env : Env) (raw : Nat) (hraw : raw < 65536) :
    floatToUnsigned env 32 ((raw : ℚ) * (1 / 2)) = raw / 2 := by
  have hq : (0 : ℚ) ≤ (raw : ℚ) := Nat.cast_nonneg raw
  have hlt : (raw : ℚ) < 65536 := by exact_mod_cast hraw
  have h0 : (0 : ℚ) ≤ (raw : ℚ) * (1 / 2) := by positivity
  have h1 : (raw : ℚ) * (1 / 2) < 2 ^ 32 := by norm_num; linarith
  have hsplit : raw = 2 * (raw / 2) + raw % 2 := (Nat.div_add_mod raw 2).symm
  have hr : raw % 2 < 2 := Nat.mod_lt _ (by decide)
  have hsplitq : (raw : ℚ) = 2 * ((raw / 2 : Nat) : ℚ) + ((raw % 2 : Nat) : ℚ) := by
    exact_mod_cast hsplit
  have hrq : ((raw % 2 : Nat) : ℚ) < 2 := by exact_mod_cast hr
  have hrq0 : (0 : ℚ) ≤ ((raw % 2 : Nat) : ℚ) := Nat.cast_nonneg _
  have hfloor : ⌊(raw : ℚ) * (1 / 2)⌋ = ((raw / 2 : Nat) : Int) := by
    rw [Int.floor_eq_iff]
    simp only [Int.cast_natCast]
    constructor <;> linarith
  rw [floatToUnsigned_of_range env 32 _ h0 h1, hfloor, Int.toNat_ofNat]

/-- C6, as stated, fails: when the read delivers raw = 1601 (bytes 0x41, 0x06)
for rail 0x64, the handler returns 0 but the response word holds 800, not
1601 * 0.5 = 800.5. -/
theorem C6_odd_raw_counterexample :
    u16OfBytes [0x41, 0x06] = 1601
    ∧ (get_voltage_handler (Env.answering [0x41, 0x06]) World.initial 0
        (request.of 0x64 0) response.zero).2.2 = 0
    ∧ (get_voltage_handler (Env.answering [0x41, 0x06]) World.initial 0
        (request.of 0x64 0) response.zero).2.1.data 1 = 800
    ∧ ((800 : Nat) : ℚ) ≠ ((1601 : Nat) : ℚ) * (1 / 2) := by
  have hv : (i2c_get_max20816 (Env.answering [0x41, 0x06]) World.initial P0V8_VCORE_ADDR).2
      = ((1601 : Nat) : ℚ) * (1 / 2) :=
    i2c_get_max20816_value _ _ _ 1601 (by decide) (by simp [Env.answering, u16Bytes])
  refine ⟨by decide, ?_, ?_, by norm_num⟩
  · simp [get_voltage_handler, request.word, request.of, P0V8_VCORE_ADDR, P0V8_VCOREM_ADDR]
  · have hw : (request.of 0x64 0).word 1 = P0V8_VCORE_ADDR := by
      simp [request.word, request.of, P0V8_VCORE_ADDR]
    simp only [get_voltage_handler, hw, get_vcore, hv, floatToUnsigned_half _ 1601 (by decide)]
    simp [P0V8_VCORE_ADDR, P0V8_VCOREM_ADDR, response.store]

/-- C6, amended: for every 16-bit raw value the bus read delivers, the
GetVoltage handler called with a configured rail address (0x64 or 0x65)
selects that device, issues one 2-byte read of READ_VOUT (0x8B), returns code
0, and stores in response word 1 the value raw * 0.5 mV (0.5 mV per LSB, no
LINEAR11 decoding) truncated to an integer, raw / 2; the stored value is
raw * 0.5 exactly when raw is even. The other response words and the tracked
control source are unchanged. -/
theorem C6_get_voltage_truncates (env : Env) (w : World) (msg_code : Nat) (req : request)
    (resp : response) (raw : Nat) (hraw : raw < 65536)
    (haddr : req.word 1 = 0x64 ∨ req.word 1 = 0x65)
    (hrx : env.rx (w.trace.length + 1) = u16Bytes raw) :
    (get_voltage_handler env w msg_code req resp).1
        = { vout_cmd_source := w.vout_cmd_source
            trace := w.trace ++ [BusEvent.i2cInit env.I2CMst (req.word 1) env.I2CFastMode 1,
              BusEvent.i2cRead 1 0x8B 1 2 0] }
    ∧ (get_voltage_handler env w msg_code req resp).2.2 = 0
    ∧ (i2c_get_max20816 env w (req.word 1)).2 = (raw : ℚ) * (1 / 2)
    ∧ (get_voltage_handler env w msg_code req resp).2.1.data 1 = raw / 2
    ∧ (∀ i, i ≠ 1 → (get_voltage_handler env w msg_code req resp).2.1.data i = resp.data i)
    ∧ (raw % 2 = 0 →
        (((get_voltage_handler env w msg_code req resp).2.1.data 1 : Nat) : ℚ)
          = (raw : ℚ) * (1 / 2)) := by
  have hval := i2c_get_max20816_value env w (req.word 1) raw hraw hrx
  have hhalf := floatToUnsigned_half env raw hraw
  have hworld := i2c_get_max20816_world env w (req.word 1)
  have hdata : (get_voltage_handler env w msg_code req resp).2.1.data 1 = raw / 2 := by
    have hhalf' : floatToUnsigned env 32 ((raw : ℚ) * 2⁻¹) = raw / 2 := by
      rw [← one_div]; exact hhalf
    rcases haddr with h | h
    · rw [h] at hval
      simp [get_voltage_handler, h, get_vcore, P0V8_VCORE_ADDR, P0V8_VCOREM_ADDR,
        response.store, hval, hhalf']
    · rw [h] at hval
      simp [get_voltage_handler, h, get_vcorem, P0V8_VCORE_ADDR, P0V8_VCOREM_ADDR,
        response.store, hval, hhalf']
  refine ⟨?_, ?_, hval, hdata, ?_, ?_⟩
  · rcases haddr with h | h
    · rw [h] at hworld ⊢
      simp [get_voltage_handler, h, get_vcore, P0V8_VCORE_ADDR, P0V8_VCOREM_ADDR, hworld]
    · rw [h] at hworld ⊢
      simp [get_voltage_handler, h, get_vcorem, P0V8_VCORE_ADDR, P0V8_VCOREM_ADDR, hworld]
  · rcases haddr with h | h <;>
      simp [get_voltage_handler, h, P0V8_VCORE_ADDR, P0V8_VCOREM_ADDR]
  · intro i hi
    rcases haddr with h | h <;>
      simp [get_voltage_handler, h, P0V8_VCORE_ADDR, P0V8_VCOREM_ADDR, response.store,
        Function.update, hi]
  · intro heven
    rw [hdata]
    have hsplit : raw = 2 * (raw / 2) := by omega
    have hsplitq : (raw : ℚ) = 2 * ((raw / 2 : Nat) : ℚ) := by exact_mod_cast hsplit
    linarith

/-- C6 amended, at raw = 1600 for rail 0x65: code 0 and the response word
holds 800. -/
theorem C6_get_voltage_truncates_witness :
    (get_voltage_handler (Env.answering [0x40, 0x06]) World.initial 0
        (request.of 0x65 0) response.zero).2.2 = 0
    ∧ (get_voltage_handler (Env.answering [0x40, 0x06]) World.initial 0
        (request.of 0x65 0) response.zero).2.1.data 1 = 1600 / 2 :=
  have h := C6_get_voltage_truncates (Env.answering [0x40, 0x06]) World.initial 0
    (request.of 0x65 0) response.zero 1600 (by decide)
    (Or.inr (by simp [request.word, request.of]))
    (by simp [Env.answering, u16Bytes])
  ⟨h.2.1, h.2.2.2.1⟩

/-! ## C7, C8, C9: SwitchVoutControl -/

/-- The byte `SwitchVoutControl` writes back when it has read `b`. -/
theorem switched_byte (b source : Nat) :
    OperationBits.toByte
        { OperationBits.ofByte b with
          transition_control := 1, voltage_command_source := source % 4 }
      = b % 2 + 2 + 4 * (b / 4 % 4) + 16 * (source % 4) + 64 * (b / 64 % 2)
          + 128 * (b / 128 % 2) := by
  simp only [OperationBits.toByte, OperationBits.ofByte]
  omega

/-- The state after `SwitchVoutControl`, for any selector and any bus answers. -/
theorem SwitchVoutControl_eq (env : Env) (w : World) (source : Nat) :
    SwitchVoutControl env w source
      = { vout_cmd_source := source % 256
          trace := w.trace ++ [BusEvent.i2cInit env.I2CMst 0x64 env.I2CFastMode 1,
            BusEvent.i2cRead 1 0x1 1 1 0,
            BusEvent.i2cWrite 1 0x1 1
              [OperationBits.toByte
                { OperationBits.ofByte ((env.rx (w.trace.length + 1)).getD 0 0 % 256) with
                  transition_control := 1, voltage_command_source := source % 4 }],
            BusEvent.waitUs 100] } := by
  simp [SwitchVoutControl, I2CInit, I2CReadBytes, I2CWriteBytes, WaitUs, PMBUS_MST_ID,
    OPERATION, PMBUS_CMD_BYTE_SIZE, OPERATION_DATA_BYTE_SIZE, PMBUS_FLIP_BYTES,
    P0V8_VCORE_ADDR, List.range, List.range.loop]

/-- Outside bits 1, 4 and 5 the rewritten OPERATION byte has the bits of the
byte that was read. -/
theorem bits_kept (b target : Nat) (hb : b < 256) (ht : target < 4) (i : Nat) (hi : i < 8)
    (h1 : i ≠ 1) (h4 : i ≠ 4) (h5 : i ≠ 5) :
    (b % 2 + 2 + 4 * (b / 4 % 4) + 16 * (target % 4) + 64 * (b / 64 % 2)
          + 128 * (b / 128 % 2)) / 2 ^ i % 2 = b / 2 ^ i % 2 := by
  have hdec : b = b % 2 + 2 * (b / 2 % 2) + 4 * (b / 4 % 4) + 16 * (b / 16 % 4)
      + 64 * (b / 64 % 2) + 128 * (b / 128 % 2) := by omega
  have e0 : b % 2 < 2 := by omega
  have e1 : b / 2 % 2 < 2 := by omega
  have e2 : b / 4 % 4 < 4 := by omega
  have e3 : b / 16 % 4 < 4 := by omega
  have e4 : b / 64 % 2 < 2 := by omega
  have e5 : b / 128 % 2 < 2 := by omega
  generalize b % 2 = r0 at *
  generalize b / 2 % 2 = r1 at *
  generalize b / 4 % 4 = r2 at *
  generalize b / 16 % 4 = r3 at *
  generalize b / 64 % 2 = r4 at *
  generalize b / 128 % 2 = r5 at *
  subst hdec
  have ht' : target % 4 = target := Nat.mod_eq_of_lt ht
  rw [ht']
  interval_cases i <;> simp only [Nat.reducePow] <;> omega

/-- C7: for every byte b read from the OPERATION register and every target
among the four ControlSource values, the byte SwitchVoutControl writes back to
OPERATION has the transition-control bit (bit 1) set and the 2-bit
control-source field (bits 5..4) equal to target, and every other bit
(reserved, margin-fault-response, turn-off-behaviour, on/off-state) equal to
the same bit of b. -/
theorem C7_operation_byte (env : Env) (w : World) (b target : Nat) (hb : b < 256)
    (ht : target < 4) (hrx : env.rx (w.trace.length + 1) = [b]) :
    ∃ b' : Nat,
      (SwitchVoutControl env w target).trace
        = w.trace ++ [BusEvent.i2cInit env.I2CMst 0x64 env.I2CFastMode 1,
            BusEvent.i2cRead 1 0x1 1 1 0, BusEvent.i2cWrite 1 0x1 1 [b'],
            BusEvent.waitUs 100]
      ∧ b' < 256
      ∧ b'.testBit 1 = true
      ∧ b' / 16 % 4 = target
      ∧ ∀ i : Nat, i ≠ 1 → i ≠ 4 → i ≠ 5 → b'.testBit i = b.testBit i := by
  refine ⟨b % 2 + 2 + 4 * (b / 4 % 4) + 16 * (target % 4) + 64 * (b / 64 % 2)
          + 128 * (b / 128 % 2), ?_, by omega, ?_, by omega, ?_⟩
  · rw [SwitchVoutControl_eq, hrx]
    have hb' : [b].getD 0 0 % 256 = b := by simp; omega
    rw [hb', switched_byte b target]
  · rw [Nat.testBit_to_div_mod]
    simp only [decide_eq_true_eq, Nat.reducePow]
    omega
  · intro i h1 h4 h5
    by_cases hi : i < 8
    · simp only [Nat.testBit_to_div_mod]
      rw [bits_kept b target hb ht i hi h1 h4 h5]
    · have hp : 256 ≤ 2 ^ i := by
        calc 256 = 2 ^ 8 := by norm_num
          _ ≤ 2 ^ i := Nat.pow_le_pow_right (by decide) (by omega)
      rw [Nat.testBit_lt_two_pow (by omega), Nat.testBit_lt_two_pow (by omega)]

/-- C7 at b = 0x80 (on/off-state set) and target AvsBus. -/
theorem C7_operation_byte_witness :
    ∃ b' : Nat,
      (SwitchVoutControl (Env.answering [0x80]) World.initial 3).trace
        = World.initial.trace ++ [BusEvent.i2cInit (Env.answering [0x80]).I2CMst 0x64
              (Env.answering [0x80]).I2CFastMode 1,
            BusEvent.i2cRead 1 0x1 1 1 0, BusEvent.i2cWrite 1 0x1 1 [b'],
            BusEvent.waitUs 100]
      ∧ b' < 256
      ∧ b'.testBit 1 = true
      ∧ b' / 16 % 4 = 3
      ∧ ∀ i : Nat, i ≠ 1 → i ≠ 4 → i ≠ 5 → b'.testBit i = (0x80 : Nat).testBit i :=
  C7_operation_byte (Env.answering [0x80]) World.initial 0x80 3 (by decide) (by decide)
    (by simp [Env.answering])

/-- C8: for every target among the four ControlSource values and every prior
tracked control source (the case where it already equals target included),
SwitchVoutControl(target) issues one read and one write of the OPERATION
register and leaves the tracked control source equal to target; a second
switch to the same target issues the read and the write again and leaves the
same tracked state as the first. -/
theorem C8_switch_idempotent (env env' : Env) (w : World) (target : Nat) (ht : target < 4) :
    (∃ b' : Nat, (SwitchVoutControl env w target).trace
        = w.trace ++ [BusEvent.i2cInit env.I2CMst 0x64 env.I2CFastMode 1,
            BusEvent.i2cRead 1 0x1 1 1 0, BusEvent.i2cWrite 1 0x1 1 [b'],
            BusEvent.waitUs 100])
    ∧ (SwitchVoutControl env w target).vout_cmd_source = target
    ∧ (∃ b'' : Nat, (SwitchVoutControl env' (SwitchVoutControl env w target) target).trace
        = (SwitchVoutControl env w target).trace
            ++ [BusEvent.i2cInit env'.I2CMst 0x64 env'.I2CFastMode 1,
              BusEvent.i2cRead 1 0x1 1 1 0, BusEvent.i2cWrite 1 0x1 1 [b''],
              BusEvent.waitUs 100])
    ∧ (SwitchVoutControl env' (SwitchVoutControl env w target) target).vout_cmd_source
        = (SwitchVoutControl env w target).vout_cmd_source := by
  have hmod : target % 256 = target := Nat.mod_eq_of_lt (by omega)
  refine ⟨⟨_, by rw [SwitchVoutControl_eq]⟩, ?_, ⟨_, by rw [SwitchVoutControl_eq env']⟩, ?_⟩
  · rw [SwitchVoutControl_eq]; exact hmod
  · rw [SwitchVoutControl_eq env', SwitchVoutControl_eq env]

/-- C8 with AvsBus already tracked and target AvsBus: the switch still reads
and writes OPERATION, and AvsBus stays tracked. -/
theorem C8_switch_idempotent_witness :
    (SwitchVoutControl (Env.answering [0xB2]) { vout_cmd_source := 3, trace := [] } 3).trace
        = [BusEvent.i2cInit 0 0x64 1 1, BusEvent.i2cRead 1 0x1 1 1 0,
            BusEvent.i2cWrite 1 0x1 1 [0xB2], BusEvent.waitUs 100]
    ∧ (SwitchVoutControl (Env.answering [0xB2]) { vout_cmd_source := 3, trace := [] }
        3).vout_cmd_source = 3 := by
  refine ⟨?_, (C8_switch_idempotent (Env.answering [0xB2]) (Env.answering [0xB2])
    { vout_cmd_source := 3, trace := [] } 3 (by decide)).2.1⟩
  rw [SwitchVoutControl_eq]
  simp [Env.answering, OperationBits.toByte, OperationBits.ofByte]

/-- C9, as stated, fails: from the initial state (PmbusVoutCommand tracked, no
call made yet) the switch to AvsBus issues its write of OPERATION as the call
at time 2; when that write fails (result code 1), AvsBus is tracked all the
same and the SwitchControlSource handler returns 0. -/
theorem C9_failed_write_counterexample :
    (I2CWriteBytes (Env.failingAt 2 [0x80])
        { vout_cmd_source := 0
          trace := [BusEvent.i2cInit 0 0x64 1 1, BusEvent.i2cRead 1 0x1 1 1 0] }
        PMBUS_MST_ID OPERATION PMBUS_CMD_BYTE_SIZE [0xB2] OPERATION_DATA_BYTE_SIZE).2 = 1
    ∧ World.initial.vout_cmd_source = 0
    ∧ SwitchVoutControl (Env.failingAt 2 [0x80]) World.initial 3
        = { vout_cmd_source := 3
            trace := [BusEvent.i2cInit 0 0x64 1 1, BusEvent.i2cRead 1 0x1 1 1 0,
              BusEvent.i2cWrite 1 0x1 1 [0xB2], BusEvent.waitUs 100] }
    ∧ (switch_vout_control_handler (Env.failingAt 2 [0x80]) World.initial 0 (request.of 3 0)
        response.zero).1.vout_cmd_source = 3
    ∧ (switch_vout_control_handler (Env.failingAt 2 [0x80]) World.initial 0 (request.of 3 0)
        response.zero).2.2 = 0 := by
  refine ⟨by simp [I2CWriteBytes, Env.failingAt], rfl, ?_, ?_, rfl⟩
  · rw [SwitchVoutControl_eq]
    simp [World.initial, Env.failingAt, OperationBits.toByte, OperationBits.ofByte]
  · simp only [switch_vout_control_handler]
    rw [SwitchVoutControl_eq]
    simp [request.word, request.of]

/-- C9, amended: SwitchVoutControl does not look at the result of the bus
write. For every prior tracked control source, every target among the four
values and every result code of the write of OPERATION, a failure included,
the tracked control source after the call equals target, and the
SwitchControlSource handler returns 0. -/
theorem C9_switch_ignores_write_result (env : Env) (w : World) (msg_code : Nat)
    (req : request) (resp : response) (target : Nat) (ht : target < 4)
    (hreq : req.data 1 = target) :
    (switch_vout_control_handler env w msg_code req resp).1 = SwitchVoutControl env w target
    ∧ (SwitchVoutControl env w target).vout_cmd_source = target
    ∧ (switch_vout_control_handler env w msg_code req resp).2.1 = resp
    ∧ (switch_vout_control_handler env w msg_code req resp).2.2 = 0 := by
  have hword : req.word 1 = target := by
    simp only [request.word, hreq]; exact Nat.mod_eq_of_lt (by omega)
  refine ⟨by simp [switch_vout_control_handler, hword], ?_, rfl, rfl⟩
  rw [SwitchVoutControl_eq]
  exact Nat.mod_eq_of_lt (by omega)

/-- C9 amended, with AvsBus tracked and the write of OPERATION failing:
switching to PmbusMarginHigh leaves PmbusMarginHigh tracked and returns 0. -/
theorem C9_switch_ignores_write_result_witness :
    (Env.failingAt 2 [0xB2]).status 2 = 1
    ∧ (SwitchVoutControl (Env.failingAt 2 [0xB2]) { vout_cmd_source := 3, trace := [] }
        2).vout_cmd_source = 2
    ∧ (switch_vout_control_handler (Env.failingAt 2 [0xB2])
        { vout_cmd_source := 3, trace := [] } 0 (request.of 2 0) response.zero).2.2 = 0 :=
  have h := C9_switch_ignores_write_result (Env.failingAt 2 [0xB2])
    { vout_cmd_source := 3, trace := [] } 0 (request.of 2 0) response.zero 2 (by decide)
    (by simp [request.of])
  ⟨by simp [Env.failingAt], h.2.1, h.2.2.2⟩

/-! ## C10 -/

/-- C10, as stated, fails for reads: with AvsBus tracked, get_vcore and the
GetVoltage handler for rail 0x64 still take the PMBus path, a read of
READ_VOUT; no AVS call is made. -/
theorem C10_read_counterexample :
    (get_vcore (Env.answering [0x40, 0x06]) { vout_cmd_source := AVSVoutCommand, trace := [] }).1.trace
        = [BusEvent.i2cInit 0 0x64 1 1, BusEvent.i2cRead 1 0x8B 1 2 0]
    ∧ (get_voltage_handler (Env.answering [0x40, 0x06])
        { vout_cmd_source := AVSVoutCommand, trace := [] } 0 (request.of 0x64 0)
        response.zero).1.trace
        = [BusEvent.i2cInit 0 0x64 1 1, BusEvent.i2cRead 1 0x8B 1 2 0] := by
  constructor
  · simp only [get_vcore]
    rw [i2c_get_max20816_world]
    simp [Env.answering, P0V8_VCORE_ADDR]
  · have hw : (request.of 0x64 0).word 1 = P0V8_VCORE_ADDR := by
      simp [request.word, request.of, P0V8_VCORE_ADDR]
    simp only [get_voltage_handler, hw, get_vcore]
    rw [i2c_get_max20816_world]
    simp [Env.answering, P0V8_VCORE_ADDR, P0V8_VCOREM_ADDR]

/-- C10, amended: for the primary rail (address 0x64), writing a voltage
(set_vcore, and the SetVoltage handler through it) uses the AVS path exactly
when the tracked control source is AvsBus and the PMBus path exactly when it
is any other source; reading the voltage (get_vcore, and the GetVoltage
handler through it) uses the PMBus path whatever the tracked control source. -/
theorem C10_dispatch (env : Env) (w : World) (mv : ℚ) :
    ((set_vcore env w mv).trace = w.trace ++ [BusEvent.avsWrite mv env.AVS_VCORE_RAIL]
        ↔ w.vout_cmd_source = AVSVoutCommand)
    ∧ ((set_vcore env w mv).trace
          = w.trace ++ [BusEvent.i2cInit env.I2CMst 0x64 env.I2CFastMode 1,
              BusEvent.i2cWrite 1 0x21 1 (u16Bytes (floatToUnsigned env 16 (2 * mv))),
              BusEvent.waitUs 250]
        ↔ w.vout_cmd_source ≠ AVSVoutCommand)
    ∧ (get_vcore env w).1.trace
        = w.trace ++ [BusEvent.i2cInit env.I2CMst 0x64 env.I2CFastMode 1,
            BusEvent.i2cRead 1 0x8B 1 2 0]
    ∧ (∀ (msg_code : Nat) (req : request) (resp : response), req.word 1 = 0x64 →
        (set_voltage_handler env w msg_code req resp).1
            = set_vcore env w (u32ToFloat (req.word 2))
        ∧ (get_voltage_handler env w msg_code req resp).1 = (get_vcore env w).1) := by
  have havs : w.vout_cmd_source = AVSVoutCommand →
      (set_vcore env w mv).trace = w.trace ++ [BusEvent.avsWrite mv env.AVS_VCORE_RAIL] := by
    intro h
    simp [set_vcore, h, AVSWriteVoltage]
  have hpm : w.vout_cmd_source ≠ AVSVoutCommand →
      (set_vcore env w mv).trace
          = w.trace ++ [BusEvent.i2cInit env.I2CMst 0x64 env.I2CFastMode 1,
              BusEvent.i2cWrite 1 0x21 1 (u16Bytes (floatToUnsigned env 16 (2 * mv))),
              BusEvent.waitUs 250] := by
    intro h
    simp only [set_vcore, if_neg h]
    rw [i2c_set_max20816_trace]
    rfl
  refine ⟨⟨?_, havs⟩, ⟨?_, hpm⟩, ?_, ?_⟩
  · intro h
    by_contra hne
    rw [hpm hne] at h
    have := congrArg List.length h
    simp at this
  · intro h hsrc
    rw [havs hsrc] at h
    have := congrArg List.length h
    simp at this
  · simp only [get_vcore]
    rw [i2c_get_max20816_world]
    rfl
  · intro msg_code req resp haddr
    constructor
    · simp [set_voltage_handler, haddr, P0V8_VCORE_ADDR, P0V8_VCOREM_ADDR]
    · simp [get_voltage_handler, haddr, P0V8_VCORE_ADDR, P0V8_VCOREM_ADDR]

/-- C10 amended, for the SetVoltage and GetVoltage handlers at rail 0x64 with
AvsBus tracked: the write is an AVS call, the read is a PMBus read. -/
theorem C10_dispatch_witness :
    (set_voltage_handler (Env.answering [0x40, 0x06])
        { vout_cmd_source := AVSVoutCommand, trace := [] } 0 (request.of 0x64 800)
        response.zero).1.trace = [BusEvent.avsWrite 800 0]
    ∧ (get_voltage_handler (Env.answering [0x40, 0x06])
        { vout_cmd_source := AVSVoutCommand, trace := [] } 0 (request.of 0x64 800)
        response.zero).1.trace = [BusEvent.i2cInit 0 0x64 1 1, BusEvent.i2cRead 1 0x8B 1 2 0] := by
  have h := C10_dispatch (Env.answering [0x40, 0x06])
    { vout_cmd_source := AVSVoutCommand, trace := [] } 800
  have hw : (request.of 0x64 800).word 1 = 0x64 := by simp [request.word, request.of]
  have hv : u32ToFloat ((request.of 0x64 800).word 2) = 800 := by
    have : (request.of 0x64 800).word 2 = 800 := by simp [request.word, request.of]
    rw [this, u32ToFloat_of_lt 800 (by norm_num)]
    norm_num
  have hh := h.2.2.2 0 (request.of 0x64 800) response.zero hw
  constructor
  · rw [hh.1, hv, h.1.mpr rfl]
    simp [Env.answering]
  · rw [hh.2, h.2.2.1]
    simp [Env.answering]

/-! ## C11 -/

/-- The state after `i2c_set_max20816`, whatever the bus answers. -/
theorem i2c_set_max20816_eq (env : Env) (w : World) (addr : Nat) (mv : ℚ) :
    i2c_set_max20816 env w addr mv
      = { vout_cmd_source := w.vout_cmd_source
          trace := w.trace ++ [BusEvent.i2cInit env.I2CMst addr env.I2CFastMode 1,
            BusEvent.i2cWrite 1 0x21 1 (u16Bytes (floatToUnsigned env 16 (2 * mv))),
            BusEvent.waitUs 250] } := by
  have htr := i2c_set_max20816_trace env w addr mv
  have hso := i2c_set_max20816_source env w addr mv
  cases hres : i2c_set_max20816 env w addr mv with
  | mk s t =>
    rw [hres] at htr hso
    simp only at htr hso
    rw [htr, hso]

/-- The SetVoltage handler on the PMBus path: rail 0x65, or rail 0x64 while
AvsBus is not tracked. -/
theorem set_voltage_handler_pmbus (env : Env) (w : World) (msg_code : Nat) (req : request)
    (resp : response)
    (hpath : req.word 1 = 0x65 ∨ (req.word 1 = 0x64 ∧ w.vout_cmd_source ≠ AVSVoutCommand)) :
    set_voltage_handler env w msg_code req resp
      = ({ vout_cmd_source := w.vout_cmd_source
           trace := w.trace ++ [BusEvent.i2cInit env.I2CMst (req.word 1) env.I2CFastMode 1,
             BusEvent.i2cWrite 1 0x21 1
               (u16Bytes (floatToUnsigned env 16 (2 * u32ToFloat (req.word 2)))),
             BusEvent.waitUs 250] }, resp, 0) := by
  rcases hpath with h | ⟨h, hsrc⟩
  · simp only [set_voltage_handler, h, set_vcorem, i2c_set_max20816_eq]
    simp [P0V8_VCORE_ADDR, P0V8_VCOREM_ADDR]
  · simp only [set_voltage_handler, h, set_vcore, if_neg hsrc, i2c_set_max20816_eq]
    simp [P0V8_VCORE_ADDR, P0V8_VCOREM_ADDR]

/-- C11, as stated, fails: for rail 0x65 and 800 mV from the initial state, the
write of VOUT_COMMAND is the call at time 1; when it fails (result code 1) the
handler still waits 250 microseconds and returns 0. -/
theorem C11_failed_write_counterexample :
    (I2CWriteBytes (Env.failingAt 1 [])
        { vout_cmd_source := 0, trace := [BusEvent.i2cInit 0 0x65 1 1] }
        PMBUS_MST_ID VOUT_COMMAND PMBUS_CMD_BYTE_SIZE (u16Bytes 1600)
        VOUT_COMMAND_DATA_BYTE_SIZE).2 = 1
    ∧ set_voltage_handler (Env.failingAt 1 []) World.initial 0 (request.of 0x65 800)
        response.zero
      = ({ vout_cmd_source := 0
           trace := [BusEvent.i2cInit 0 0x65 1 1, BusEvent.i2cWrite 1 0x21 1 [0x40, 0x06],
             BusEvent.waitUs 250] }, response.zero, 0) := by
  constructor
  · simp [I2CWriteBytes, Env.failingAt]
  · have hw1 : (request.of 0x65 800).word 1 = 0x65 := by simp [request.word, request.of]
    have hw2 : (request.of 0x65 800).word 2 = 800 := by simp [request.word, request.of]
    have hfl : u32ToFloat 800 = 800 := by
      rw [u32ToFloat_of_lt 800 (by norm_num)]; norm_num
    have hfloor : ⌊(2 : ℚ) * 800⌋ = 1600 := by
      rw [Int.floor_eq_iff]; norm_num
    rw [set_voltage_handler_pmbus _ _ _ _ _ (Or.inl hw1), hw1, hw2, hfl,
      floatToUnsigned_of_range _ 16 _ (by norm_num) (by norm_num), hfloor]
    simp [World.initial, Env.failingAt, u16Bytes, VoutCommand]

/-- C11, amended: i2c_set_max20816 does not look at the result of the bus
write. For every configured rail address on the PMBus path (0x65, or 0x64 while
AvsBus is not tracked), every millivolt value and every result of the write of
VOUT_COMMAND, a failure included, the SetVoltage handler performs the 250
microsecond wait and returns 0; and for every configured rail address, on
either path, it leaves the tracked control source unchanged. -/
theorem C11_set_voltage_ignores_write_result (env : Env) (w : World) (msg_code : Nat)
    (req : request) (resp : response)
    (haddr : req.word 1 = 0x64 ∨ req.word 1 = 0x65) :
    (set_voltage_handler env w msg_code req resp).1.vout_cmd_source = w.vout_cmd_source
    ∧ (set_voltage_handler env w msg_code req resp).2.2 = 0
    ∧ (set_voltage_handler env w msg_code req resp).2.1 = resp
    ∧ ((req.word 1 = 0x65 ∨ w.vout_cmd_source ≠ AVSVoutCommand) →
        ∃ payload : List Nat, (set_voltage_handler env w msg_code req resp).1.trace
          = w.trace ++ [BusEvent.i2cInit env.I2CMst (req.word 1) env.I2CFastMode 1,
              BusEvent.i2cWrite 1 0x21 1 payload, BusEvent.waitUs 250]) := by
  have hcases : (req.word 1 = 0x64 ∧ w.vout_cmd_source = AVSVoutCommand)
      ∨ (req.word 1 = 0x65 ∨ (req.word 1 = 0x64 ∧ w.vout_cmd_source ≠ AVSVoutCommand)) := by
    rcases haddr with h | h
    · by_cases hs : w.vout_cmd_source = AVSVoutCommand
      · exact Or.inl ⟨h, hs⟩
      · exact Or.inr (Or.inr ⟨h, hs⟩)
    · exact Or.inr (Or.inl h)
  rcases hcases with ⟨h, hs⟩ | hp
  · refine ⟨?_, ?_, ?_, ?_⟩
    · simp [set_voltage_handler, h, set_vcore, hs, AVSWriteVoltage, P0V8_VCORE_ADDR,
        P0V8_VCOREM_ADDR]
    · simp [set_voltage_handler, h, P0V8_VCORE_ADDR, P0V8_VCOREM_ADDR]
    · simp [set_voltage_handler, h, P0V8_VCORE_ADDR, P0V8_VCOREM_ADDR]
    · intro hor
      rcases hor with h65 | hne
      · rw [h] at h65; exact absurd h65 (by decide)
      · exact absurd hs hne
  · rw [set_voltage_handler_pmbus env w msg_code req resp hp]
    exact ⟨rfl, rfl, rfl, fun _ => ⟨_, rfl⟩⟩

/-- C11 amended, for rail 0x64 at 800 mV with the write of VOUT_COMMAND
failing: code 0, the tracked source unchanged, the wait performed. -/
theorem C11_set_voltage_ignores_write_result_witness :
    (Env.failingAt 1 []).status 1 = 1
    ∧ (set_voltage_handler (Env.failingAt 1 []) World.initial 0 (request.of 0x64 800)
        response.zero).1.vout_cmd_source = World.initial.vout_cmd_source
    ∧ (set_voltage_handler (Env.failingAt 1 []) World.initial 0 (request.of 0x64 800)
        response.zero).2.2 = 0
    ∧ ∃ payload : List Nat,
        (set_voltage_handler (Env.failingAt 1 []) World.initial 0 (request.of 0x64 800)
          response.zero).1.trace
          = World.initial.trace ++ [BusEvent.i2cInit (Env.failingAt 1 []).I2CMst
              ((request.of 0x64 800).word 1) (Env.failingAt 1 []).I2CFastMode 1,
              BusEvent.i2cWrite 1 0x21 1 payload, BusEvent.waitUs 250] :=
  have h := C11_set_voltage_ignores_write_result (Env.failingAt 1 []) World.initial 0
    (request.of 0x64 800) response.zero (Or.inl (by simp [request.word, request.of]))
  ⟨by simp [Env.failingAt], h.1, h.2.1,
    h.2.2.2 (Or.inr (by simp [World.initial, VoutCommand, AVSVoutCommand]))⟩

/-! ## C12 -/

/-- A run of init writes appends one write call per table entry, in table
order, and leaves the static variable alone, whatever the bus answers. -/
theorem writeAll_eq (env : Env) (l : List (Nat × List Nat)) :
    ∀ w : World, writeAll env w l
      = { vout_cmd_source := w.vout_cmd_source, trace := w.trace ++ l.map initWriteEvent } := by
  induction l with
  | nil => intro w; simp [writeAll]
  | cons rd rest ih =>
    intro w
    obtain ⟨reg, data⟩ := rd
    simp only [writeAll]
    rw [ih]
    simp [I2CWriteBytes, initWriteEvent, List.take_length]

/-- The state after `RegulatorInit`, whatever the bus answers. -/
theorem RegulatorInit_eq (env : Env) (w : World) :
    RegulatorInit env w
      = { vout_cmd_source := w.vout_cmd_source
          trace := w.trace
            ++ BusEvent.i2cInit env.I2CMst 0x64 env.I2CFastMode 1
                :: vcoreInitWrites.map initWriteEvent
            ++ BusEvent.i2cInit env.I2CMst 0x65 env.I2CFastMode 1
                :: vcoremInitWrites.map initWriteEvent } := by
  simp only [RegulatorInit, writeAll_eq, I2CInit]
  simp [P0V8_VCORE_ADDR, P0V8_VCOREM_ADDR, PMBUS_MST_ID]

/-- C12, as stated, fails: when the first write of RegulatorInit (register
0xb0 of device 0x64, the call at time 1) fails, the ten writes after it are
issued all the same. -/
theorem C12_no_abort_counterexample :
    (I2CWriteBytes (Env.failingAt 1 [])
        { vout_cmd_source := 0, trace := [BusEvent.i2cInit 0 0x64 1 1] }
        PMBUS_MST_ID 0xb0 PMBUS_CMD_BYTE_SIZE [0x15, 0x09, 0x3c, 0x08, 0x0a, 0x02, 0x0f, 0x00,
          0x11, 0x00, 0x00, 0x00, 0x00, 0x41, 0x03, 0x00, 0x00, 0x0f, 0x0d, 0x0a, 0x00, 0x00]
        22).2 = 1
    ∧ (RegulatorInit (Env.failingAt 1 []) World.initial).trace
      = [BusEvent.i2cInit 0 0x64 1 1,
         BusEvent.i2cWrite 1 0xb0 1 [0x15, 0x09, 0x3c, 0x08, 0x0a, 0x02, 0x0f, 0x00, 0x11, 0x00,
           0x00, 0x00, 0x00, 0x41, 0x03, 0x00, 0x00, 0x0f, 0x0d, 0x0a, 0x00, 0x00],
         BusEvent.i2cWrite 1 0xca 1 [0x04, 0x78, 0x3c, 0x0f, 0x00],
         BusEvent.i2cWrite 1 0xcb 1 [0x05, 0x50, 0x0e, 0x64, 0x28, 0x00],
         BusEvent.i2cWrite 1 0xd3 1 [0x00],
         BusEvent.i2cWrite 1 0x38 1 [0x08, 0x00],
         BusEvent.i2cWrite 1 0x39 1 [0x0c, 0x00],
         BusEvent.i2cWrite 1 0xe7 1 [0x01],
         BusEvent.i2cInit 0 0x65 1 1,
         BusEvent.i2cWrite 1 0xb0 1 [0x0f, 0x19, 0x2b, 0x08, 0x17, 0x07, 0x0f, 0x00, 0x09, 0x63,
           0x09, 0x00, 0x00, 0x3f, 0x3d, 0x3a],
         BusEvent.i2cWrite 1 0x38 1 [0x08, 0x00],
         BusEvent.i2cWrite 1 0x39 1 [0x0c, 0x00],
         BusEvent.i2cWrite 1 0xe7 1 [0x10]] := by
  constructor
  · simp [I2CWriteBytes, Env.failingAt]
  · rw [RegulatorInit_eq]
    simp [World.initial, Env.failingAt, vcoreInitWrites, vcoremInitWrites, initWriteEvent,
      PMBUS_MST_ID, PMBUS_CMD_BYTE_SIZE]

/-- C12, amended: RegulatorInit issues its configuration writes in the fixed
order (registers 0xb0, 0xca, 0xcb, 0xd3, 0x38, 0x39, 0xe7 to device 0x64, then
0xb0, 0x38, 0x39, 0xe7 to device 0x65) and does not look at the result of any
of them: whatever the result codes, a failure at any position included, every
write of the sequence is issued, the calls made and the state left are the
same as on a bus without failures, and the function, which returns nothing,
surfaces no failure. -/
theorem C12_init_sequence (env env' : Env) (w : World)
    (hmode : env'.I2CMst = env.I2CMst) (hspeed : env'.I2CFastMode = env.I2CFastMode) :
    (RegulatorInit env w).trace
        = w.trace
            ++ BusEvent.i2cInit env.I2CMst 0x64 env.I2CFastMode 1
                :: vcoreInitWrites.map initWriteEvent
            ++ BusEvent.i2cInit env.I2CMst 0x65 env.I2CFastMode 1
                :: vcoremInitWrites.map initWriteEvent
    ∧ vcoreInitWrites.map Prod.fst = [0xb0, 0xca, 0xcb, 0xd3, 0x38, 0x39, 0xe7]
    ∧ vcoremInitWrites.map Prod.fst = [0xb0, 0x38, 0x39, 0xe7]
    ∧ (∀ rd : Nat × List Nat, initWriteEvent rd = BusEvent.i2cWrite 1 rd.1 1 rd.2)
    ∧ RegulatorInit env' w = RegulatorInit env w := by
  refine ⟨by rw [RegulatorInit_eq], by decide, by decide, fun rd => rfl, ?_⟩
  rw [RegulatorInit_eq, RegulatorInit_eq, hmode, hspeed]

/-- C12 amended, comparing a bus whose first write fails with a bus without
failures: the same state results. -/
theorem C12_init_sequence_witness :
    (Env.failingAt 1 []).status 1 = 1
    ∧ RegulatorInit (Env.failingAt 1 []) World.initial
        = RegulatorInit (Env.answering []) World.initial :=
  ⟨by simp [Env.failingAt],
   (C12_init_sequence (Env.answering []) (Env.failingAt 1 []) World.initial rfl rfl).2.2.2.2⟩

/-! ## C13 -/

/-- C13: the tracked control source is changed by the switch operation only.
For every starting state and every input, GetVcoreCurrent, GetVcorePower,
set_vcore, get_vcore, set_vcorem, get_vcorem, RegulatorInit, the SetVoltage
handler and the GetVoltage handler leave the tracked control source equal to
its prior value; its initial value is PmbusVoutCommand (0). -/
theorem C13_source_frame (env : Env) (w : World) (mv : ℚ) (msg_code : Nat) (req : request)
    (resp : response) :
    (GetVcoreCurrent env w).1.vout_cmd_source = w.vout_cmd_source
    ∧ (GetVcorePower env w).1.vout_cmd_source = w.vout_cmd_source
    ∧ (set_vcore env w mv).vout_cmd_source = w.vout_cmd_source
    ∧ (get_vcore env w).1.vout_cmd_source = w.vout_cmd_source
    ∧ (set_vcorem env w mv).vout_cmd_source = w.vout_cmd_source
    ∧ (get_vcorem env w).1.vout_cmd_source = w.vout_cmd_source
    ∧ (RegulatorInit env w).vout_cmd_source = w.vout_cmd_source
    ∧ (set_voltage_handler env w msg_code req resp).1.vout_cmd_source = w.vout_cmd_source
    ∧ (get_voltage_handler env w msg_code req resp).1.vout_cmd_source = w.vout_cmd_source
    ∧ World.initial.vout_cmd_source = VoutCommand ∧ VoutCommand = 0 := by
  have hsetm : ∀ x : ℚ, (set_vcorem env w x).vout_cmd_source = w.vout_cmd_source := by
    intro x; simp only [set_vcorem, i2c_set_max20816_eq]
  have hsetc : ∀ x : ℚ, (set_vcore env w x).vout_cmd_source = w.vout_cmd_source := by
    intro x
    unfold set_vcore
    split
    · rfl
    · rw [i2c_set_max20816_eq]
  have hget : (get_vcore env w).1.vout_cmd_source = w.vout_cmd_source := by
    simp only [get_vcore, i2c_get_max20816_world]
  have hgetm : (get_vcorem env w).1.vout_cmd_source = w.vout_cmd_source := by
    simp only [get_vcorem, i2c_get_max20816_world]
  refine ⟨by simp [GetVcoreCurrent, I2CInit, I2CReadBytes],
    by simp [GetVcorePower, I2CInit, I2CReadBytes], hsetc mv, hget, hsetm mv, hgetm,
    by rw [RegulatorInit_eq], ?_, ?_, rfl, rfl⟩
  · unfold set_voltage_handler
    simp only
    split
    · rfl
    · split
      · exact hsetc _
      · split
        · exact hsetm _
        · rfl
  · unfold get_voltage_handler
    simp only
    split
    · rfl
    · split
      · exact hget
      · split
        · exact hgetm
        · rfl

/-! ## C14 -/

/-- The request words 2^24 and 2^24 + 1 convert to the same `float`. -/
theorem u32ToFloat_collision :
    u32ToFloat 16777217 = 16777216 ∧ u32ToFloat 16777216 = 16777216 := by
  have h1 : Nat.log2 16777217 = 24 := by
    rw [Nat.log2_eq_log_two, Nat.log_eq_iff] <;> norm_num
  have h0 : Nat.log2 16777216 = 24 := by
    rw [Nat.log2_eq_log_two, Nat.log_eq_iff] <;> norm_num
  constructor
  · simp only [u32ToFloat]
    norm_num [h1]
  · simp only [u32ToFloat]
    norm_num [h0]

/-- On every target the SetVoltage handler does the same for the words 2^24
and 2^24 + 1 in `data[2]`, although (2 * 2^24) mod 2^16 = 0 and
(2 * (2^24 + 1)) mod 2^16 = 2. -/
theorem set_voltage_handler_collision (env : Env) (w : World) (msg_code addr : Nat)
    (resp : response) :
    set_voltage_handler env w msg_code (request.of addr 16777217) resp
      = set_voltage_handler env w msg_code (request.of addr 16777216) resp := by
  have h1 : (request.of addr 16777217).word 2 = 16777217 := by simp [request.word, request.of]
  have h0 : (request.of addr 16777216).word 2 = 16777216 := by simp [request.word, request.of]
  have ha : (request.of addr 16777217).word 1 = (request.of addr 16777216).word 1 := by
    simp [request.word, request.of]
  simp only [set_voltage_handler, h1, h0, ha, u32ToFloat_collision.1, u32ToFloat_collision.2]

/-- C15 fails on the code at selector 7 (with the byte 0x80 read from
OPERATION): the byte written, 0xB2, carries control-source field 3, AvsBus,
but the tracked control source becomes 7; the handler returns 0, and a
following set_vcore takes the PMBus path although the field written selects
AvsBus. -/
theorem C15_selector_out_of_range :
    switch_vout_control_handler (Env.answering [0x80]) World.initial 0 (request.of 7 0)
        response.zero
      = ({ vout_cmd_source := 7
           trace := [BusEvent.i2cInit 0 0x64 1 1, BusEvent.i2cRead 1 0x1 1 1 0,
             BusEvent.i2cWrite 1 0x1 1 [0xB2], BusEvent.waitUs 100] }, response.zero, 0)
    ∧ 0xB2 / 16 % 4 = AVSVoutCommand
    ∧ (7 : Nat) ≠ AVSVoutCommand
    ∧ (set_vcore (Env.answering [0x80])
        { vout_cmd_source := 7
          trace := [BusEvent.i2cInit 0 0x64 1 1, BusEvent.i2cRead 1 0x1 1 1 0,
            BusEvent.i2cWrite 1 0x1 1 [0xB2], BusEvent.waitUs 100] } 800).trace
      = [BusEvent.i2cInit 0 0x64 1 1, BusEvent.i2cRead 1 0x1 1 1 0,
          BusEvent.i2cWrite 1 0x1 1 [0xB2], BusEvent.waitUs 100,
          BusEvent.i2cInit 0 0x64 1 1, BusEvent.i2cWrite 1 0x21 1 [0x40, 0x06],
          BusEvent.waitUs 250] := by
  refine ⟨?_, by decide, by decide, ?_⟩
  · have hw : (request.of 7 0).word 1 = 7 := by simp [request.word, request.of]
    simp only [switch_vout_control_handler, hw]
    rw [SwitchVoutControl_eq]
    simp [World.initial, Env.answering, OperationBits.toByte, OperationBits.ofByte]
  · have hne : (7 : Nat) ≠ AVSVoutCommand := by decide
    have hfloor : ⌊(2 : ℚ) * 800⌋ = 1600 := by
      rw [Int.floor_eq_iff]; norm_num
    simp only [set_vcore, if_neg hne]
    rw [i2c_set_max20816_trace, floatToUnsigned_of_range _ 16 _ (by norm_num) (by norm_num),
      hfloor]
    simp [Env.answering, P0V8_VCORE_ADDR, u16Bytes]

/-! ## C16 -/

/-- `ConvertLinear11ToFloat` reads only the low 16 bits of its argument. -/
theorem convertLinear11_mod (v : Nat) :
    ConvertLinear11ToFloat v = ConvertLinear11ToFloat (v % 65536) := by
  simp only [ConvertLinear11ToFloat, Nat.mod_mod]

/-- C16: for every 16-bit value v, ConvertLinear11ToFloat(v) is non-negative
and at most 2047 * 2^15, and it is 0 exactly when the low 11 bits of v are all
zero; so the current and the power that GetVcoreCurrent and GetVcorePower
return are never negative, whatever the regulator delivers. -/
theorem C16_decode_bounds :
    (∀ v : Nat, v < 65536 →
      0 ≤ ConvertLinear11ToFloat v
      ∧ ConvertLinear11ToFloat v ≤ 2047 * 2 ^ 15
      ∧ (ConvertLinear11ToFloat v = 0 ↔ v % 2048 = 0))
    ∧ (∀ (env : Env) (w : World),
        0 ≤ (GetVcoreCurrent env w).2 ∧ 0 ≤ (GetVcorePower env w).2) := by
  have key : ∀ v : Nat, v < 65536 →
      0 ≤ ConvertLinear11ToFloat v
      ∧ ConvertLinear11ToFloat v ≤ 2047 * 2 ^ 15
      ∧ (ConvertLinear11ToFloat v = 0 ↔ v % 2048 = 0) := by
    intro v hv
    rw [convertLinear11_eq v hv]
    have hE : linear11Exponent v ≤ 15 := by
      unfold linear11Exponent; split <;> omega
    have hM : linear11Mantissa v ≤ 2047 := by
      unfold linear11Mantissa; omega
    have hMq : (linear11Mantissa v : ℚ) ≤ 2047 := by exact_mod_cast hM
    have hM0 : (0 : ℚ) ≤ (linear11Mantissa v : ℚ) := Nat.cast_nonneg _
    have hpos : (0 : ℚ) < (2 : ℚ) ^ linear11Exponent v := zpow_pos (by norm_num) _
    have hle : (2 : ℚ) ^ linear11Exponent v ≤ (2 : ℚ) ^ (15 : Int) :=
      zpow_le_zpow_right₀ (by norm_num) hE
    have h15 : (2 : ℚ) ^ (15 : Int) = 2 ^ 15 := by norm_cast
    refine ⟨mul_nonneg hM0 hpos.le, ?_, ?_⟩
    · calc (linear11Mantissa v : ℚ) * (2 : ℚ) ^ linear11Exponent v
          ≤ 2047 * (2 : ℚ) ^ (15 : Int) := mul_le_mul hMq hle hpos.le (by norm_num)
        _ = 2047 * 2 ^ 15 := by rw [h15]
    · constructor
      · intro h
        rcases mul_eq_zero.mp h with h0 | h0
        · have : linear11Mantissa v = 0 := by exact_mod_cast h0
          exact this
        · exact absurd h0 hpos.ne'
      · intro h
        have : linear11Mantissa v = 0 := h
        rw [this]; simp
  refine ⟨key, ?_⟩
  intro env w
  constructor
  · simp only [GetVcoreCurrent]
    rw [convertLinear11_mod]
    exact (key _ (Nat.mod_lt _ (by decide))).1
  · simp only [GetVcorePower]
    rw [convertLinear11_mod]
    exact (key _ (Nat.mod_lt _ (by decide))).1

/-- C16 at v = 0x7FFF, the largest decode, and at v = 0xF800, whose low 11
bits are zero. -/
theorem C16_decode_bounds_witness :
    (0 ≤ ConvertLinear11ToFloat 0x7FFF ∧ ConvertLinear11ToFloat 0x7FFF ≤ 2047 * 2 ^ 15)
    ∧ ConvertLinear11ToFloat 0xF800 = 0 :=
  ⟨⟨(C16_decode_bounds.1 0x7FFF (by decide)).1, (C16_decode_bounds.1 0x7FFF (by decide)).2.1⟩,
   (C16_decode_bounds.1 0xF800 (by decide)).2.2.mpr (by decide)⟩

end Regulator
